import Mathlib

/-!
Shallow embedding of the buffered response writer and the transaction layer of
the repository (response_writer.go, transactions.go, and the scope stubs in
src/unnamed/part_000), together with a byte-slice heap model used to analyse
the aliasing behaviour of `clone`.

Conventions of the embedding:
* Go `int` is modelled as `Int`; status codes never overflow.
* Body bytes are modelled as `List Nat`; no arithmetic is ever performed on a
  byte, so the 2^8 bound is irrelevant.
* Go methods that mutate their receiver through a pointer become functions
  returning the updated value.
* `error` results become `Option` values; `none` is Go's `nil` error.
-/

set_option autoImplicit false

/-- HTTP status constant `StatusOK`, referenced by `flushResponse`
(response_writer.go:148); the constant itself is defined outside the given
sources, with the universal value 200. -/
def StatusOK : Int := 200

/-- HTTP status constant `StatusBadRequest`, the default error status used by
`Transaction.Complete` (transactions.go:76); defined outside the given
sources, with the universal value 400. -/
def StatusBadRequest : Int := 400

/-- Name of the Content-Type header: the `contentType` constant the source
reads in `Transaction.Complete` (transactions.go:89); the constant is defined
outside the given sources with the canonical value. -/
def contentTypeKey : String := "Content-Type"

/-- An `http.Header` is a multimap from header names to ordered value lists;
it is modelled as the flat list of (name, value) pairs in insertion order, so
that `Get` returns the first value ever added for a name, exactly as
`net/http`'s `Add`/`Get` pair does.  Names are taken to be already in
canonical MIME form, since `net/http` canonicalises them on every access.  Go
map iteration order is unspecified; the model iterates in list order. -/
abbrev Header := List (String × String)

/-- Model of `http.Header.Get`: the first value recorded for the given name,
or "" when the name is absent. -/
def Header.Get (h : Header) (key : String) : String :=
  match h.find? (fun p => p.1 == key) with
  | some p => p.2
  | none => ""

/-- Model of `http.Header.Add`: appends one value for the given name. -/
def Header.Add (h : Header) (key value : String) : Header :=
  h ++ [(key, value)]

/-- `TransactionErrResult` (transactions.go:8): status code, reason and
content type of a structured transaction failure. -/
structure TransactionErrResult where
  statusCode : Int
  reason : String
  contentType : String
deriving DecidableEq

/-- `Error` (transactions.go:17): returns the reason given by the user or an
empty string. -/
def TransactionErrResult.Error (err : TransactionErrResult) : String :=
  err.reason

/-- `IsFailure` (transactions.go:22): true iff this is an actual error,
i.e. the status code is at least 400. -/
def TransactionErrResult.IsFailure (err : TransactionErrResult) : Bool :=
  decide (err.statusCode ≥ 400)

/-- `NewTransactionErrResult` (transactions.go:28). -/
def NewTransactionErrResult (statusCode : Int) (reason contentType : String) :
    TransactionErrResult :=
  { statusCode := statusCode, reason := reason, contentType := contentType }

/-- Deferred before-flush callbacks, modelled as first-order data (the closure
code together with its captured environment).  The only callback the embedded
code registers is the one `RequestTransactionScope` installs
(transactions.go:147), capturing the failure descriptor; at flush time it
either overwrites the response from the descriptor (non-empty reason) or
invokes the context's `EmitError`. -/
inductive FlushCallback where
  | requestError (maybeErr : TransactionErrResult)
deriving DecidableEq

/-- `ResponseWriter` (response_writer.go:34): buffers body, status code and
headers instead of writing them.  `sink` stands for the header map of the
wrapped `http.ResponseWriter` (`w.ResponseWriter.Header()`), which
`ResetHeaders` re-installs.  `beforeFlush` is modelled from the spec: the
writer keeps an ordered list of deferred before-flush callbacks appended to by
`SetBeforeFlush`; that method is called by `RequestTransactionScope` but
defined outside the given sources. -/
structure ResponseWriter where
  sink : Header
  body : List Nat
  statusCode : Int
  headers : Header
  beforeFlush : List FlushCallback
deriving DecidableEq

/-- `Header` (response_writer.go:50): the live header map. -/
def ResponseWriter.Header (w : ResponseWriter) : Header :=
  w.headers

/-- `StatusCode` (response_writer.go:55). -/
def ResponseWriter.StatusCode (w : ResponseWriter) : Int :=
  w.statusCode

/-- `Write` (response_writer.go:80): appends to the buffered body and returns
`(len(w.body), nil)` where the length is read after the append. -/
def ResponseWriter.Write (w : ResponseWriter) (contents : List Nat) :
    (Nat × Option String) × ResponseWriter :=
  let w' := { w with body := w.body ++ contents }
  ((w'.body.length, none), w')

/-- `SetBody` (response_writer.go:91): overrides the body wholesale. -/
def ResponseWriter.SetBody (w : ResponseWriter) (b : List Nat) : ResponseWriter :=
  { w with body := b }

/-- `ResetBody` (response_writer.go:96): truncates the body to empty. -/
def ResponseWriter.ResetBody (w : ResponseWriter) : ResponseWriter :=
  { w with body := [] }

/-- `ResetHeaders` (response_writer.go:101): re-installs the underlying
writer's header map. -/
def ResponseWriter.ResetHeaders (w : ResponseWriter) : ResponseWriter :=
  { w with headers := w.sink }

/-- `Reset` (response_writer.go:107): `ResetHeaders`, clear the status code,
`ResetBody`. -/
def ResponseWriter.Reset (w : ResponseWriter) : ResponseWriter :=
  let w1 := w.ResetHeaders
  let w2 := { w1 with statusCode := 0 }
  w2.ResetBody

/-- `WriteHeader` (response_writer.go:118): records the status code. -/
def ResponseWriter.WriteHeader (w : ResponseWriter) (statusCode : Int) :
    ResponseWriter :=
  { w with statusCode := statusCode }

/-- Modelled from the spec: `SetBeforeFlush` appends one callback to the
writer's ordered before-flush list; the method is called by
`RequestTransactionScope` (transactions.go:147) but defined outside the given
sources. -/
def ResponseWriter.SetBeforeFlush (w : ResponseWriter) (cb : FlushCallback) :
    ResponseWriter :=
  { w with beforeFlush := w.beforeFlush ++ [cb] }

/-- `clone` (response_writer.go:186): a new writer struct sharing the same
underlying sink, with the status code, headers and body copied over; every
field the source does not copy (here `beforeFlush`) is the fresh struct's zero
value. -/
def ResponseWriter.clone (w : ResponseWriter) : ResponseWriter :=
  { sink := w.sink
    body := w.body
    statusCode := w.statusCode
    headers := w.headers
    beforeFlush := [] }

/-- Header-merge step of `writeTo` (response_writer.go:203): a source entry
(k, v) is added to the accumulator exactly when `Get v` — note: the lookup key
is the entry's value, not its name — returns "". -/
def mergeHeadersStep (acc : ResponseWriter) (kv : String × String) :
    ResponseWriter :=
  if Header.Get acc.headers kv.2 == "" then
    { acc with headers := Header.Add acc.headers kv.1 kv.2 }
  else
    acc

/-- `writeTo` (response_writer.go:196): merges into `to` the status code (the
strictly greater one wins), then the headers (one `mergeHeadersStep` per
source entry), then the body (appended via `Write` when non-empty). -/
def ResponseWriter.writeTo (w dst : ResponseWriter) : ResponseWriter :=
  let to1 := if dst.statusCode < w.statusCode then { dst with statusCode := w.statusCode } else dst
  let to2 := w.headers.foldl mergeHeadersStep to1
  if 0 < w.body.length then (to2.Write w.body).2 else to2

/-- Modelled from the spec: the request-context capabilities this core
consumes — its canonical buffered writer, the configured charset
(`t.parent.framework.Config.Charset` in transactions.go:78) and the flag set
by `SkipTransactions()`; the `Context` type is defined outside the given
sources. -/
structure Context where
  writer : ResponseWriter
  charset : String
  skipTransactions : Bool
deriving DecidableEq

/-- Modelled from the spec: `SkipTransactions()` sets a flag causing the
context to stop invoking further queued transactions; defined outside the
given sources. -/
def Context.SkipTransactions (c : Context) : Context :=
  { c with skipTransactions := true }

/-- `TransactionScopeFunc` (transactions.go:118): a scope receives the failure
descriptor, the transaction's writer and the parent context.  Go mutates the
writer and the context through pointers, so the model returns their updated
values next to the continue-chain boolean. -/
abbrev TransactionScopeFunc :=
  TransactionErrResult → ResponseWriter → Context → Bool × ResponseWriter × Context

/-- `TransientTransactionScope` (transactions.go:130): on failure the writer
is reset; the scope always continues. -/
def TransientTransactionScope : TransactionScopeFunc := fun maybeErr w ctx =>
  if maybeErr.IsFailure then (true, w.Reset, ctx) else (true, w, ctx)

/-- `RequestTransactionScope` (transactions.go:142): on failure, register a
before-flush callback capturing the descriptor and stop the chain; otherwise
continue. -/
def RequestTransactionScope : TransactionScopeFunc := fun maybeErr w ctx =>
  if maybeErr.IsFailure then
    (false, w.SetBeforeFlush (FlushCallback.requestError maybeErr), ctx)
  else
    (true, w, ctx)

/-- Modelled from the spec: `linkedTransactionScope.EndTransaction`
(src/unnamed/part_000:48-56) is an empty stub in the sources; per the spec,
the Linked scope returns continue = false on failure without writing anything
itself, and true otherwise. -/
def linkedTransactionScope : TransactionScopeFunc := fun maybeErr w ctx =>
  if maybeErr.IsFailure then (false, w, ctx) else (true, w, ctx)

/-- Go `error` values passed to `Complete`: either a structured
`TransactionErrResult` (the type assertion at transactions.go:80 succeeds) or
any other error, represented by its `Error()` message. -/
inductive GoError where
  | txErr (e : TransactionErrResult)
  | generic (msg : String)
deriving DecidableEq

/-- `Error()` of a Go error value. -/
def GoError.Error : GoError → String
  | .txErr e => e.Error
  | .generic msg => msg

/-- `Transaction` (transactions.go:42): parent context, own cloned writer,
error flag and scope. -/
structure Transaction where
  parent : Context
  Response : ResponseWriter
  hasError : Bool
  scope : TransactionScopeFunc

/-- `newTransaction` (transactions.go:49): clones the context's writer; the
default scope is `TransientTransactionScope`. -/
def newTransaction (parent : Context) : Transaction :=
  { parent := parent
    Response := parent.writer.clone
    hasError := false
    scope := TransientTransactionScope }

/-- `SetScope` (transactions.go:61). -/
def Transaction.SetScope (t : Transaction) (scope : TransactionScopeFunc) :
    Transaction :=
  { t with scope := scope }

/-- Failure-descriptor classification performed by `Complete`
(transactions.go:70-98): a nil error gives the zero descriptor; otherwise the
status defaults to 400, the reason to the error's message and the content type
to "text/plain; charset=<configured charset>", with a `TransactionErrResult`
overriding the status when it is positive, the reason when non-empty, and the
content type taken from the transaction's own buffered Content-Type header
when that lookup is non-empty. -/
def Transaction.completeDescriptor (t : Transaction) (err : Option GoError) :
    TransactionErrResult :=
  match err with
  | none => { statusCode := 0, reason := "", contentType := "" }
  | some e =>
    let statusCode := StatusBadRequest
    let reason := e.Error
    let cType := "text/plain; charset=" ++ t.parent.charset
    match e with
    | GoError.generic _ =>
      { statusCode := statusCode, reason := reason, contentType := cType }
    | GoError.txErr errWstatus =>
      let statusCode := if 0 < errWstatus.statusCode then errWstatus.statusCode else statusCode
      let reason := if errWstatus.reason ≠ "" then errWstatus.reason else reason
      let cTypeH := Header.Get t.Response.Header contentTypeKey
      let cType := if cTypeH ≠ "" then cTypeH else cType
      { statusCode := statusCode, reason := reason, contentType := cType }

/-- `Complete` (transactions.go:70-107): builds the descriptor, marks
`hasError` on a non-nil error, lets the scope end the transaction and, when
the scope returns false, calls the parent's `SkipTransactions`. -/
def Transaction.Complete (t : Transaction) (err : Option GoError) : Transaction :=
  let maybeErr := t.completeDescriptor err
  let hasError := if err.isSome then true else t.hasError
  let res := t.scope maybeErr t.Response t.parent
  let ctx := if res.1 then res.2.2 else Context.SkipTransactions res.2.2
  { parent := ctx, Response := res.2.1, hasError := hasError, scope := t.scope }

/-- Repeated `Write` calls, in order: the handler-side usage pattern the spec
quantifies over. -/
def writeAll (w : ResponseWriter) (chunks : List (List Nat)) : ResponseWriter :=
  chunks.foldl (fun acc c => (acc.Write c).2) w

/-!
Byte-slice heap model.  The functional `ResponseWriter` above abstracts the
`body []byte` field as a value, which is sound for every single-writer
operation but hides the aliasing between a writer and its `clone`
(response_writer.go:191 copies the slice header, sharing the backing array).
The refined model below gives Go slices their operational semantics — a
backing-array id, a length, and an in-place `append` when capacity suffices —
restricted to what the source does with the body slice: every slice in this
code has offset 0 (the only reslicing is `w.body[0:0]` in `ResetBody`).
Headers are left out here: body bytes and the status code are the observables
of the claim, and the header map is shared by design.  The status code is a
plain struct field, so a clone (a distinct struct) can never alter the
original's status code; only the heap-mediated body bytes can be affected.
-/

/-- Go byte-slice header with offset 0: backing-array id and length. -/
structure GoSlice where
  arr : Nat
  len : Nat
deriving DecidableEq

/-- Heap of backing arrays: contents per array id (the list's length is the
array's capacity) and the next unused id. -/
structure SliceHeap where
  arrays : Nat → List Nat
  fresh : Nat

/-- Observable bytes of a slice: the first `len` cells of its backing array. -/
def SliceHeap.bytes (h : SliceHeap) (s : GoSlice) : List Nat :=
  (h.arrays s.arr).take s.len

/-- Overwrites one backing array. -/
def SliceHeap.setArr (h : SliceHeap) (i : Nat) (a : List Nat) : SliceHeap :=
  { h with arrays := fun j => if j = i then a else h.arrays j }

/-- Allocates a fresh backing array holding `a`. -/
def SliceHeap.alloc (h : SliceHeap) (a : List Nat) : SliceHeap × Nat :=
  ({ arrays := fun j => if j = h.fresh then a else h.arrays j, fresh := h.fresh + 1 },
   h.fresh)

/-- Go's `append(s, c...)` on a byte slice: writes in place past `s.len` when
the capacity suffices, else copies the visible bytes into a fresh array.  (Go
rounds the fresh capacity up; the model allocates exactly the needed length,
which only makes later in-place appends rarer and is irrelevant to the
preserved invariant.) -/
def goAppend (h : SliceHeap) (s : GoSlice) (c : List Nat) : SliceHeap × GoSlice :=
  let A := h.arrays s.arr
  if s.len + c.length ≤ A.length then
    (h.setArr s.arr (A.take s.len ++ c ++ A.drop (s.len + c.length)),
     { s with len := s.len + c.length })
  else
    let hi := h.alloc (A.take s.len ++ c)
    (hi.1, { arr := hi.2, len := s.len + c.length })

/-- The body-and-status fragment of `ResponseWriter` in the slice model. -/
structure SliceRW where
  body : GoSlice
  statusCode : Int
deriving DecidableEq

/-- `clone` in the slice model (response_writer.go:186-192): copies the status
code and the body slice header; the backing array is shared. -/
def SliceRW.clone (w : SliceRW) : SliceRW :=
  w

/-- The mutations of the claim, as first-order operations. -/
inductive WOp where
  | write (c : List Nat)
  | setBody (c : List Nat)
  | writeHeader (code : Int)
  | resetBody
  | reset
deriving DecidableEq

/-- Marks the operations that never re-slice the body below its current
length (everything except `ResetBody` and `Reset`). -/
def WOp.isSafe : WOp → Bool
  | .resetBody => false
  | .reset => false
  | _ => true

/-- One mutation step in the slice model, mirroring response_writer.go:
`Write` is `body = append(body, c...)`; `SetBody` installs a caller-supplied
fresh slice; `WriteHeader` records the code; `ResetBody` is `body = body[0:0]`
(length zero, same backing array); `Reset` clears the status code and does
`ResetBody` (its `ResetHeaders` part touches neither body nor status). -/
def applyOp : SliceHeap × SliceRW → WOp → SliceHeap × SliceRW
  | (h, w), .write c =>
    let hs := goAppend h w.body c
    (hs.1, { w with body := hs.2 })
  | (h, w), .setBody c =>
    let hi := h.alloc c
    (hi.1, { w with body := { arr := hi.2, len := c.length } })
  | (h, w), .writeHeader code => (h, { w with statusCode := code })
  | (h, w), .resetBody => (h, { w with body := { w.body with len := 0 } })
  | (h, w), .reset => (h, { w with statusCode := 0, body := { w.body with len := 0 } })

/-- Applies a sequence of mutations, in order. -/
def applyOps (st : SliceHeap × SliceRW) (ops : List WOp) : SliceHeap × SliceRW :=
  ops.foldl applyOp st

/-!
Concrete inputs used by counterexamples and witnesses.
-/

/-- A heap with one three-byte backing array. -/
def cexHeap : SliceHeap :=
  { arrays := fun i => if i = 0 then [10, 11, 12] else [], fresh := 1 }

/-- A writer whose body fills that array. -/
def cexOrig : SliceRW :=
  { body := { arr := 0, len := 3 }, statusCode := 200 }

/-- Merge source with one header entry named "X" valued "a". -/
def cexMergeSrc : ResponseWriter :=
  { sink := [], body := [], statusCode := 0, headers := [("X", "a")], beforeFlush := [] }

/-- Merge target that already carries a header named "X" (valued "b"). -/
def cexMergeTgt : ResponseWriter :=
  { sink := [], body := [], statusCode := 0, headers := [("X", "b")], beforeFlush := [] }

/-- A concrete parent context. -/
def cexCtx : Context :=
  { writer := { sink := [], body := [7], statusCode := 200, headers := [], beforeFlush := [] }
    charset := "UTF-8"
    skipTransactions := false }

/-- A fresh transaction on that context (Transient scope by default). -/
def cexTx : Transaction :=
  newTransaction cexCtx

/-- The same transaction under the Request scope. -/
def cexTxRequest : Transaction :=
  cexTx.SetScope RequestTransactionScope

/-- The same transaction under the Linked scope. -/
def cexTxLinked : Transaction :=
  cexTx.SetScope linkedTransactionScope

/-- A structured error whose status code 200 is positive but not a failure. -/
def cexNonFailingErr : GoError :=
  GoError.txErr (NewTransactionErrResult 200 "soft" "")

/-- A structured failing error. -/
def cexFailingErr : GoError :=
  GoError.txErr (NewTransactionErrResult 503 "db down" "")

/-- Merge target that already carries a header named "a", the name the
value-keyed lookup of `writeTo` will probe for `cexMergeSrc`'s entry. -/
def cexMergeTgt2 : ResponseWriter :=
  { sink := [], body := [], statusCode := 0, headers := [("a", "zzz")], beforeFlush := [] }

/-- Merge source carrying status code 500. -/
def cexW500 : ResponseWriter :=
  { sink := [], body := [], statusCode := 500, headers := [], beforeFlush := [] }

/-- Merge source with the status code unset (0). -/
def cexW0 : ResponseWriter :=
  { sink := [], body := [], statusCode := 0, headers := [], beforeFlush := [] }

/-- Merge target carrying status code 200. -/
def cexT200 : ResponseWriter :=
  { sink := [], body := [], statusCode := 200, headers := [], beforeFlush := [] }

/-- Invariant carried through a run of clone-side mutations: the original's
observable bytes are those of the starting heap, the original's backing array
keeps its capacity and stays below the allocation frontier, the clone's slice
is in bounds, and the clone's slice either lives in another array or extends
at least to the original's length (so in-place appends land past the
original's visible bytes). -/
def OrigIntact (h0 : SliceHeap) (orig : SliceRW) (st : SliceHeap × SliceRW) : Prop :=
  SliceHeap.bytes st.1 orig.body = SliceHeap.bytes h0 orig.body ∧
  orig.body.len ≤ (st.1.arrays orig.body.arr).length ∧
  orig.body.arr < st.1.fresh ∧
  st.2.body.len ≤ (st.1.arrays st.2.body.arr).length ∧
  (st.2.body.arr ≠ orig.body.arr ∨ orig.body.len ≤ st.2.body.len)

/-!
Helper lemmas shared by the claim theorems.
-/

theorem Write_statusCode (w : ResponseWriter) (c : List Nat) :
    ((w.Write c).2).statusCode = w.statusCode := rfl

theorem Write_headers (w : ResponseWriter) (c : List Nat) :
    ((w.Write c).2).headers = w.headers := rfl

theorem Write_body (w : ResponseWriter) (c : List Nat) :
    ((w.Write c).2).body = w.body ++ c := rfl

theorem mergeHeadersStep_statusCode (acc : ResponseWriter) (kv : String × String) :
    (mergeHeadersStep acc kv).statusCode = acc.statusCode := by
  unfold mergeHeadersStep
  split <;> rfl

theorem mergeHeadersStep_headers (acc : ResponseWriter) (kv : String × String) :
    (mergeHeadersStep acc kv).headers =
      if Header.Get acc.headers kv.2 == "" then Header.Add acc.headers kv.1 kv.2
      else acc.headers := by
  unfold mergeHeadersStep
  split <;> simp_all

theorem foldl_mergeHeadersStep_statusCode (l : List (String × String)) :
    ∀ acc : ResponseWriter, (l.foldl mergeHeadersStep acc).statusCode = acc.statusCode := by
  induction l with
  | nil => intro acc; rfl
  | cons kv tl ih =>
    intro acc
    rw [List.foldl_cons, ih, mergeHeadersStep_statusCode]

theorem statusIf_headers (w dst : ResponseWriter) :
    (if dst.statusCode < w.statusCode then { dst with statusCode := w.statusCode } else dst).headers
      = dst.headers := by
  split <;> rfl

theorem writeAll_body (chunks : List (List Nat)) :
    ∀ w : ResponseWriter, (writeAll w chunks).body = w.body ++ chunks.flatten := by
  induction chunks with
  | nil => intro w; simp [writeAll]
  | cons c tl ih =>
    intro w
    show (writeAll ((w.Write c).2) tl).body = _
    rw [ih, Write_body]
    simp

/-!
Claim theorems.
-/

/-- C8: `Write` appends its argument to the buffered body, never fails, and
returns the cumulative length of the buffered body after the append; after any
number of successive `Write` calls the buffered body is the starting body
followed by the concatenation of all the arguments in call order. -/
theorem write_appends_and_reports_total :
    ∀ (w : ResponseWriter) (contents : List Nat) (chunks : List (List Nat)),
    ((w.Write contents).2.body = w.body ++ contents) ∧
    ((w.Write contents).1 = ((w.body ++ contents).length, (none : Option String))) ∧
    ((writeAll w chunks).body = w.body ++ chunks.flatten) := by
  intro w contents chunks
  exact ⟨rfl, rfl, writeAll_body chunks w⟩

/-- C5: `writeTo` makes the target's status code the source's exactly when the
source's is strictly greater and leaves it alone otherwise; in particular
merging status 500 into status 200 yields 500, and merging status 0 (unset)
into any writer whose status is non-negative (0 means unset, and HTTP status
codes are non-negative) leaves the target's status unchanged. -/
theorem writeTo_statusCode_precedence :
    ∀ (w dst : ResponseWriter),
    ((w.writeTo dst).statusCode
       = if dst.statusCode < w.statusCode then w.statusCode else dst.statusCode) ∧
    (w.statusCode = 500 → dst.statusCode = 200 → (w.writeTo dst).statusCode = 500) ∧
    (w.statusCode = 0 → 0 ≤ dst.statusCode → (w.writeTo dst).statusCode = dst.statusCode) := by
  intro w dst
  have hmain : (w.writeTo dst).statusCode
      = if dst.statusCode < w.statusCode then w.statusCode else dst.statusCode := by
    unfold ResponseWriter.writeTo
    split <;> split <;>
      simp [Write_statusCode, foldl_mergeHeadersStep_statusCode]
  refine ⟨hmain, ?_, ?_⟩
  · intro h5 h2
    rw [hmain, h5, h2]
    norm_num
  · intro h0 hnn
    rw [hmain, h0]
    simp [not_lt.mpr hnn]

/-- C5 witness: instantiates `writeTo_statusCode_precedence` at the concrete
merges of the claim. -/
theorem writeTo_statusCode_precedence_witness :
    ((cexW500.writeTo cexT200).statusCode = 500) ∧
    ((cexW0.writeTo cexT200).statusCode = cexT200.statusCode) :=
  ⟨(writeTo_statusCode_precedence cexW500 cexT200).2.1 rfl rfl,
   (writeTo_statusCode_precedence cexW0 cexT200).2.2 rfl (by decide)⟩

/-- C1 as stated is false: `writeTo` keys its presence check on the entry's
value, not its name, so a source entry ("X", "a") is appended to a target that
already carries header "X" (valued "b"), leaving "X" with both values. -/
theorem writeTo_headers_name_dedup_false :
    (Header.Get cexMergeTgt.headers "X" ≠ "") ∧
    ((cexMergeSrc.writeTo cexMergeTgt).headers = [("X", "b"), ("X", "a")]) ∧
    ((cexMergeSrc.writeTo cexMergeTgt).headers ≠ cexMergeTgt.headers) := by
  refine ⟨by decide, by decide, by decide⟩

/-- C1 amended: during a merge a source header entry (k, v) is added to the
target exactly when the target has no header whose name equals the entry's
VALUE v (the lookup at response_writer.go:205 passes the value where a name is
expected); whether the entry's own name k is already present is never
consulted. -/
theorem writeTo_headers_value_keyed :
    ∀ (w dst : ResponseWriter) (k v : String),
    w.headers = [(k, v)] →
    ((Header.Get dst.headers v = "" → (w.writeTo dst).headers = Header.Add dst.headers k v) ∧
     (Header.Get dst.headers v ≠ "" → (w.writeTo dst).headers = dst.headers)) := by
  intro w dst k v hw
  have hh : (w.writeTo dst).headers
      = (mergeHeadersStep
          (if dst.statusCode < w.statusCode then { dst with statusCode := w.statusCode } else dst)
          (k, v)).headers := by
    unfold ResponseWriter.writeTo
    rw [hw]
    simp only [List.foldl_cons, List.foldl_nil]
    split
    · rw [Write_headers]
    · rfl
  rw [hh, mergeHeadersStep_headers, statusIf_headers]
  constructor
  · intro hget
    simp [hget]
  · intro hget
    simp [hget]

/-- C1 amended witness: instantiates `writeTo_headers_value_keyed` on a target
without a header named "a" (the entry is appended although name "X" is already
taken) and on a target carrying a header named "a" (nothing is added). -/
theorem writeTo_headers_value_keyed_witness :
    (cexMergeSrc.headers = [("X", "a")]) ∧
    (Header.Get cexMergeTgt.headers "a" = "") ∧
    ((cexMergeSrc.writeTo cexMergeTgt).headers = Header.Add cexMergeTgt.headers "X" "a") ∧
    (Header.Get cexMergeTgt2.headers "a" ≠ "") ∧
    ((cexMergeSrc.writeTo cexMergeTgt2).headers = cexMergeTgt2.headers) :=
  ⟨rfl, by decide,
   (writeTo_headers_value_keyed cexMergeSrc cexMergeTgt "X" "a" rfl).1 (by decide),
   by decide,
   (writeTo_headers_value_keyed cexMergeSrc cexMergeTgt2 "X" "a" rfl).2 (by decide)⟩

/-- C3: for a non-nil error, the descriptor handed to the scope defaults to
status 400, reason the error's message and content type
"text/plain; charset=<configured charset>"; a `TransactionErrResult` overrides
the status iff its code is positive and the reason iff non-empty, and the
content type is taken from the transaction's own buffered Content-Type header
iff that lookup yields a value. -/
theorem complete_error_classification :
    ∀ (t : Transaction) (msg : String) (r : TransactionErrResult),
    (t.completeDescriptor (some (GoError.generic msg))
       = { statusCode := 400, reason := msg,
           contentType := "text/plain; charset=" ++ t.parent.charset }) ∧
    (t.completeDescriptor (some (GoError.txErr r))
       = { statusCode := if 0 < r.statusCode then r.statusCode else 400,
           reason := if r.reason ≠ "" then r.reason else (GoError.txErr r).Error,
           contentType :=
             if Header.Get t.Response.Header contentTypeKey ≠ "" then
               Header.Get t.Response.Header contentTypeKey
             else "text/plain; charset=" ++ t.parent.charset }) := by
  intro t msg r
  exact ⟨rfl, rfl⟩

/-- C2: under the Request scope, a failing descriptor makes `Complete` append
the scope's before-flush callback to the transaction writer's list and set the
parent's skip-transactions flag (the scope returned continue = false); a
non-failing descriptor leaves the writer untouched and the flag as it was. -/
theorem requestScope_complete_shortCircuits :
    ∀ (t : Transaction) (err : Option GoError),
    t.scope = RequestTransactionScope →
    (((t.completeDescriptor err).IsFailure = true →
        ((t.Complete err).Response.beforeFlush
           = t.Response.beforeFlush
               ++ [FlushCallback.requestError (t.completeDescriptor err)] ∧
         (t.Complete err).parent.skipTransactions = true)) ∧
     ((t.completeDescriptor err).IsFailure = false →
        ((t.Complete err).Response = t.Response ∧
         (t.Complete err).parent.skipTransactions = t.parent.skipTransactions))) := by
  intro t err hs
  constructor
  · intro hd
    constructor <;>
      simp [Transaction.Complete, hs, RequestTransactionScope, hd,
        ResponseWriter.SetBeforeFlush, Context.SkipTransactions]
  · intro hd
    constructor <;>
      simp [Transaction.Complete, hs, RequestTransactionScope, hd]

/-- C2 witness: instantiates `requestScope_complete_shortCircuits` on a
concrete Request-scoped transaction completed with a failing structured
error. -/
theorem requestScope_complete_shortCircuits_witness :
    (cexTxRequest.scope = RequestTransactionScope) ∧
    ((cexTxRequest.completeDescriptor (some cexFailingErr)).IsFailure = true) ∧
    ((cexTxRequest.Complete (some cexFailingErr)).Response.beforeFlush
       = cexTxRequest.Response.beforeFlush
           ++ [FlushCallback.requestError (cexTxRequest.completeDescriptor (some cexFailingErr))] ∧
     (cexTxRequest.Complete (some cexFailingErr)).parent.skipTransactions = true) :=
  ⟨rfl, by decide,
   (requestScope_complete_shortCircuits cexTxRequest (some cexFailingErr) rfl).1 (by decide)⟩

/-- C4: under the Transient scope a failing descriptor fully resets the
transaction's writer (body empty, status unset, headers back to the sink's),
a non-failing one leaves it alone, the scope always continues, and `Complete`
therefore never touches the parent's skip-transactions flag. -/
theorem transientScope_resets_and_continues :
    ∀ (d : TransactionErrResult) (w : ResponseWriter) (c : Context)
      (t : Transaction) (err : Option GoError),
    t.scope = TransientTransactionScope →
    ((d.IsFailure = true →
        TransientTransactionScope d w c
          = (true, { w with body := [], statusCode := 0, headers := w.sink }, c)) ∧
     (d.IsFailure = false → TransientTransactionScope d w c = (true, w, c)) ∧
     ((t.Complete err).parent.skipTransactions = t.parent.skipTransactions)) := by
  intro d w c t err hs
  refine ⟨?_, ?_, ?_⟩
  · intro hd
    simp [TransientTransactionScope, hd, ResponseWriter.Reset,
      ResponseWriter.ResetHeaders, ResponseWriter.ResetBody]
  · intro hd
    simp [TransientTransactionScope, hd]
  · cases hf : (t.completeDescriptor err).IsFailure <;>
      simp [Transaction.Complete, hs, TransientTransactionScope, hf]

/-- C4 witness: instantiates `transientScope_resets_and_continues` on a
concrete failing descriptor and a concrete Transient-scoped completion. -/
theorem transientScope_resets_and_continues_witness :
    (cexTx.scope = TransientTransactionScope) ∧
    ((NewTransactionErrResult 500 "x" "").IsFailure = true) ∧
    (TransientTransactionScope (NewTransactionErrResult 500 "x" "") cexCtx.writer cexCtx
       = (true, { cexCtx.writer with body := [], statusCode := 0, headers := cexCtx.writer.sink }, cexCtx)) ∧
    ((cexTx.Complete (some cexFailingErr)).parent.skipTransactions
       = cexTx.parent.skipTransactions) :=
  ⟨rfl, by decide,
   (transientScope_resets_and_continues (NewTransactionErrResult 500 "x" "")
     cexCtx.writer cexCtx cexTx (some cexFailingErr) rfl).1 rfl,
   (transientScope_resets_and_continues (NewTransactionErrResult 500 "x" "")
     cexCtx.writer cexCtx cexTx (some cexFailingErr) rfl).2.2⟩

/-- C6: under the Linked scope (modelled from the spec, the stub in
src/unnamed/part_000 being empty) a failing descriptor makes the scope return
continue = false without writing anything, upon which `Complete` sets the
parent's skip-transactions flag while leaving the parent's canonical writer —
the already-merged output — and the transaction's writer untouched; a
non-failing descriptor continues and changes nothing. -/
theorem linkedScope_vetoes_chain :
    ∀ (d : TransactionErrResult) (w : ResponseWriter) (c : Context)
      (t : Transaction) (err : Option GoError),
    t.scope = linkedTransactionScope →
    ((d.IsFailure = true → linkedTransactionScope d w c = (false, w, c)) ∧
     (d.IsFailure = false → linkedTransactionScope d w c = (true, w, c)) ∧
     ((t.completeDescriptor err).IsFailure = true →
        ((t.Complete err).parent.skipTransactions = true ∧
         (t.Complete err).parent.writer = t.parent.writer ∧
         (t.Complete err).Response = t.Response)) ∧
     ((t.completeDescriptor err).IsFailure = false →
        ((t.Complete err).parent = t.parent ∧
         (t.Complete err).Response = t.Response))) := by
  intro d w c t err hs
  refine ⟨?_, ?_, ?_, ?_⟩
  · intro hd
    simp [linkedTransactionScope, hd]
  · intro hd
    simp [linkedTransactionScope, hd]
  · intro hd
    refine ⟨?_, ?_, ?_⟩ <;>
      simp [Transaction.Complete, hs, linkedTransactionScope, hd, Context.SkipTransactions]
  · intro hd
    constructor <;>
      simp [Transaction.Complete, hs, linkedTransactionScope, hd]

/-- C6 witness: instantiates `linkedScope_vetoes_chain` on a concrete
Linked-scoped transaction completed with a failing structured error. -/
theorem linkedScope_vetoes_chain_witness :
    (cexTxLinked.scope = linkedTransactionScope) ∧
    ((cexTxLinked.completeDescriptor (some cexFailingErr)).IsFailure = true) ∧
    ((cexTxLinked.Complete (some cexFailingErr)).parent.skipTransactions = true ∧
     (cexTxLinked.Complete (some cexFailingErr)).parent.writer = cexTxLinked.parent.writer ∧
     (cexTxLinked.Complete (some cexFailingErr)).Response = cexTxLinked.Response) :=
  ⟨rfl, by decide,
   (linkedScope_vetoes_chain (cexTxLinked.completeDescriptor (some cexFailingErr))
     cexTxLinked.Response cexCtx cexTxLinked (some cexFailingErr) rfl).2.2.1 (by decide)⟩

/-- C7 as stated is false: `Complete` sets `hasError` for every non-nil
error, even one whose descriptor is not a failure — completing with a
`TransactionErrResult` carrying status 200 yields a non-failing descriptor yet
turns `hasError` on. -/
theorem hasError_nonfailing_counterexample :
    (cexTx.hasError = false) ∧
    ((cexTx.completeDescriptor (some cexNonFailingErr)).IsFailure = false) ∧
    ((cexTx.Complete (some cexNonFailingErr)).hasError = true) :=
  ⟨rfl, by decide, by decide⟩

/-- C7 amended: `hasError` becomes true when and only when `Complete` is
called with a non-nil error (failing or not), and once set it is never reset:
after any `Complete` the flag equals its old value or-ed with the presence of
an error. -/
theorem complete_hasError_iff_err :
    ∀ (t : Transaction) (err : Option GoError),
    (t.Complete err).hasError = (t.hasError || err.isSome) := by
  intro t err
  cases err <;> simp [Transaction.Complete]

/-- C10: completing with a nil error under the default Transient scope leaves
the transaction's writer, its parent context (hence the skip-transactions
flag) and the error flag exactly as they were. -/
theorem complete_nil_transient_noop :
    ∀ t : Transaction,
    t.scope = TransientTransactionScope →
    ((t.Complete none).Response = t.Response ∧
     (t.Complete none).parent = t.parent ∧
     (t.Complete none).hasError = t.hasError) := by
  intro t hs
  refine ⟨?_, ?_, ?_⟩ <;>
    simp [Transaction.Complete, hs, Transaction.completeDescriptor,
      TransientTransactionScope, TransactionErrResult.IsFailure]

/-- C10 witness: instantiates `complete_nil_transient_noop` on a concrete
default-scoped transaction. -/
theorem complete_nil_transient_noop_witness :
    (cexTx.scope = TransientTransactionScope) ∧
    ((cexTx.Complete none).Response = cexTx.Response ∧
     (cexTx.Complete none).parent = cexTx.parent ∧
     (cexTx.Complete none).hasError = cexTx.hasError) :=
  ⟨rfl, complete_nil_transient_noop cexTx rfl⟩

/-!
Slice-heap lemmas for the clone-aliasing analysis.
-/

theorem setArr_arrays_self (h : SliceHeap) (i : Nat) (a : List Nat) :
    (h.setArr i a).arrays i = a := by
  simp [SliceHeap.setArr]

theorem setArr_arrays_other (h : SliceHeap) (i : Nat) (a : List Nat) (j : Nat)
    (hne : j ≠ i) : (h.setArr i a).arrays j = h.arrays j := by
  simp [SliceHeap.setArr, hne]

theorem overwrite_length (A c : List Nat) (L : Nat)
    (hle : L + c.length ≤ A.length) :
    (A.take L ++ c ++ A.drop (L + c.length)).length = A.length := by
  have hL : L ≤ A.length := le_trans (Nat.le_add_right L c.length) hle
  simp [List.length_append, List.length_take, List.length_drop, Nat.min_eq_left hL]
  omega

theorem take_overwrite (A c : List Nat) (L n : Nat)
    (hnL : n ≤ L) (hnA : n ≤ A.length) :
    (A.take L ++ c ++ A.drop (L + c.length)).take n = A.take n := by
  have h1 : n ≤ (A.take L).length := by
    rw [List.length_take]
    exact le_min hnL hnA
  rw [List.append_assoc, List.take_append_of_le_length h1, List.take_take,
    Nat.min_eq_left hnL]

theorem applyOp_preserves_OrigIntact
    (h0 : SliceHeap) (orig : SliceRW) (st : SliceHeap × SliceRW) (op : WOp)
    (hsafe : op.isSafe = true) (hI : OrigIntact h0 orig st) :
    OrigIntact h0 orig (applyOp st op) := by
  obtain ⟨h, w⟩ := st
  obtain ⟨hbytes, holen, hofresh, hwlen, hdisj⟩ := hI
  dsimp only at hbytes holen hofresh hwlen hdisj
  have hne : orig.body.arr ≠ h.fresh := Nat.ne_of_lt hofresh
  cases op with
  | writeHeader code =>
    exact ⟨hbytes, holen, hofresh, hwlen, hdisj⟩
  | resetBody => simp [WOp.isSafe] at hsafe
  | reset => simp [WOp.isSafe] at hsafe
  | setBody c =>
    simp only [applyOp, SliceHeap.alloc]
    refine ⟨?_, ?_, ?_, ?_, ?_⟩
    · rw [← hbytes]
      simp [SliceHeap.bytes, hne]
    · simpa [hne] using holen
    · exact Nat.lt_succ_of_lt hofresh
    · simp
    · exact Or.inl (Ne.symm hne)
  | write c =>
    simp only [applyOp, goAppend]
    by_cases hle : w.body.len + c.length ≤ (h.arrays w.body.arr).length
    · rw [if_pos hle]
      by_cases harr : w.body.arr = orig.body.arr
      · have hlenle : orig.body.len ≤ w.body.len := by
          rcases hdisj with hd | hd
          · exact absurd harr hd
          · exact hd
        have hleo : w.body.len + c.length ≤ (h.arrays orig.body.arr).length := by
          rw [← harr]; exact hle
        refine ⟨?_, ?_, hofresh, ?_, ?_⟩
        · rw [← hbytes]
          simp only [SliceHeap.bytes]
          rw [harr, setArr_arrays_self]
          exact take_overwrite _ _ _ _ hlenle holen
        · dsimp only
          rw [harr, setArr_arrays_self, overwrite_length _ _ _ hleo]
          exact holen
        · dsimp only
          rw [setArr_arrays_self, overwrite_length _ _ _ hle]
          exact hle
        · exact Or.inr (le_trans hlenle (Nat.le_add_right _ _))
      · have hne2 : orig.body.arr ≠ w.body.arr := fun hc => harr hc.symm
        refine ⟨?_, ?_, hofresh, ?_, Or.inl harr⟩
        · rw [← hbytes]
          simp only [SliceHeap.bytes]
          rw [setArr_arrays_other _ _ _ _ hne2]
        · rw [setArr_arrays_other _ _ _ _ hne2]
          exact holen
        · dsimp only
          rw [setArr_arrays_self, overwrite_length _ _ _ hle]
          exact hle
    · rw [if_neg hle]
      simp only [SliceHeap.alloc]
      refine ⟨?_, ?_, Nat.lt_succ_of_lt hofresh, ?_, Or.inl (Ne.symm hne)⟩
      · rw [← hbytes]
        simp [SliceHeap.bytes, hne]
      · simpa [hne] using holen
      · dsimp only
        simp [List.length_append, List.length_take, List.length_drop]
        try omega

theorem applyOps_preserves_OrigIntact (h0 : SliceHeap) (orig : SliceRW) :
    ∀ (ops : List WOp) (st : SliceHeap × SliceRW),
    (∀ op ∈ ops, op.isSafe = true) → OrigIntact h0 orig st →
    OrigIntact h0 orig (applyOps st ops) := by
  intro ops
  induction ops with
  | nil => intro st _ hI; exact hI
  | cons op tl ih =>
    intro st hsafe hI
    show OrigIntact h0 orig (applyOps (applyOp st op) tl)
    exact ih (applyOp st op)
      (fun o ho => hsafe o (List.mem_cons_of_mem _ ho))
      (applyOp_preserves_OrigIntact h0 orig st op (hsafe op (List.mem_cons_self _ _)) hI)

/-- C9 as stated is false: a `ResetBody` on the clone re-slices the shared
backing array to length 0, so the next `Write` on the clone overwrites the
original's buffered bytes in place — the original's observable body changes
from [10, 11, 12] to [99, 11, 12] although only the clone was mutated. -/
theorem clone_resetBody_write_mutates_original :
    (SliceHeap.bytes cexHeap cexOrig.body = [10, 11, 12]) ∧
    (SliceHeap.bytes (applyOps (cexHeap, cexOrig.clone) [WOp.resetBody, WOp.write [99]]).1
       cexOrig.body = [99, 11, 12]) ∧
    (SliceHeap.bytes (applyOps (cexHeap, cexOrig.clone) [WOp.resetBody, WOp.write [99]]).1
       cexOrig.body ≠ SliceHeap.bytes cexHeap cexOrig.body) :=
  ⟨by decide, by decide, by decide⟩

/-- C9 amended: after `clone`, any sequence of `Write`, `SetBody` and
`WriteHeader` applied only to the clone leaves the original's observable body
bytes unchanged (the status code is a plain struct field of the distinct clone
struct, so it can never be affected); this frame property fails once the
sequence contains `ResetBody` or `Reset`, after which a `Write` on the clone
can overwrite the original's body through the shared backing array — that and
the shared header map are the exceptions. -/
theorem clone_safe_mutation_frame :
    ∀ (h0 : SliceHeap) (orig : SliceRW) (ops : List WOp),
    orig.body.arr < h0.fresh →
    orig.body.len ≤ (h0.arrays orig.body.arr).length →
    (∀ op ∈ ops, op.isSafe = true) →
    SliceHeap.bytes (applyOps (h0, orig.clone) ops).1 orig.body
      = SliceHeap.bytes h0 orig.body := by
  intro h0 orig ops hfr hlen hsafe
  have hinit : OrigIntact h0 orig (h0, orig.clone) :=
    ⟨rfl, hlen, hfr, hlen, Or.inr (le_refl _)⟩
  exact (applyOps_preserves_OrigIntact h0 orig ops (h0, orig.clone) hsafe hinit).1

/-- C9 amended witness: instantiates `clone_safe_mutation_frame` on the
concrete heap and a concrete sequence of reset-free mutations. -/
theorem clone_safe_mutation_frame_witness :
    (cexOrig.body.arr < cexHeap.fresh) ∧
    (cexOrig.body.len ≤ (cexHeap.arrays cexOrig.body.arr).length) ∧
    (∀ op ∈ [WOp.write [1], WOp.setBody [2], WOp.writeHeader 500, WOp.write [3]],
       op.isSafe = true) ∧
    (SliceHeap.bytes
       (applyOps (cexHeap, cexOrig.clone)
         [WOp.write [1], WOp.setBody [2], WOp.writeHeader 500, WOp.write [3]]).1
       cexOrig.body = SliceHeap.bytes cexHeap cexOrig.body) :=
  ⟨by decide, by decide, by decide,
   clone_safe_mutation_frame cexHeap cexOrig
     [WOp.write [1], WOp.setBody [2], WOp.writeHeader 500, WOp.write [3]]
     (by decide) (by decide) (by decide)⟩
